import Mathlib

/-
Verification of the Livuth backend's event-discovery and engagement-counter
core, as a shallow embedding in Lean 4.

The embedded functions are translated from:
  backend/services/srv_event_mongo.py   (toggle_like, get_all, search_events,
                                         get_nearby_events, get_recommended_events)
  backend/services/srv_user_mongo.py    (follow_user, unfollow_user, is_following)
  backend/services/srv_review_mongo.py  (create_review, update_review,
                                         delete_review, get_event_average_rating,
                                         _update_event_stats)
  backend/utils/recommendation.py       (calculate_relevance_score,
                                         are_related_keywords,
                                         rank_events_by_relevance)
  backend/utils/geo_utils.py            (calculate_distance: floating-point
                                         trigonometry, modelled as an abstract
                                         distance oracle passed to the pipeline)

MongoDB documents become Lean structures; collections become lists or
functions from identifiers to optional documents; the atomic update
operators $addToSet / $pull / $inc / $set become the corresponding pure list
and record updates; raising an exception becomes returning `Except.error`
(the raises modelled here all happen before any write is issued on their
path, so an error leaves the state untouched).  Python floats on the
modelled paths carry exact decimal/integral values and are modelled as `ℚ`.
-/

/-- MongoDB array membership uses element equality; identifiers are modelled
as naturals.  `$addToSet` appends the element at the end of the array when it
is not yet present, and leaves the array unchanged otherwise. -/
def addToSet (l : List Nat) (x : Nat) : List Nat :=
  if x ∈ l then l else l ++ [x]

/-- MongoDB `$pull` removes every occurrence of the value from the array. -/
def pullElem (l : List Nat) (x : Nat) : List Nat :=
  l.filter (fun y => y ≠ x)

/-- Error kinds.  Modelled from the spec: the module
`backend/utils/exception_handler.py` (CustomException, ExceptionType) is not
under src/; §7 of the spec fixes the kinds NotFound, BadRequest and Conflict
(duplicate rating), and the services raise FORBIDDEN and DUPLICATE_ENTRY by
name.  `attributeError` and `typeError` stand for the corresponding Python
runtime errors on faulty attribute access / keyword call. -/
inductive SvcError where
  | badRequest
  | notFound
  | duplicateEntry
  | forbidden
  | attributeError
  | typeError
deriving DecidableEq, Repr

/-- Banker's rounding of a rational to an integer: round to nearest, halves
to the even neighbour, as Python's builtin `round` does. -/
def roundHalfEven (q : ℚ) : ℤ :=
  let n := ⌊q⌋
  let f := q - (n : ℚ)
  if f < 1/2 then n
  else if 1/2 < f then n + 1
  else if n % 2 = 0 then n else n + 1

/-- Python `round(x, 2)` on the modelled rationals. -/
def round2 (q : ℚ) : ℚ := (roundHalfEven (q * 100) : ℚ) / 100

/-- Python `round(x, 1)` on the modelled rationals. -/
def round1 (q : ℚ) : ℚ := (roundHalfEven (q * 10) : ℚ) / 10

/-- Comparison by a projected key, the relation a Python
`list.sort(key=...)` sorts by (ascending). -/
def byKeyLE {α β : Type} [LinearOrder β] (k : α → β) : α → α → Prop :=
  fun a b => k a ≤ k b

/-- Comparison by a projected key, descending (`list.sort(key=..., reverse=True)`
and MongoDB `sort(field, -1)`). -/
def byKeyGE {α β : Type} [LinearOrder β] (k : α → β) : α → α → Prop :=
  fun a b => k b ≤ k a

instance {α β : Type} [LinearOrder β] (k : α → β) : DecidableRel (byKeyLE k) :=
  fun a b => inferInstanceAs (Decidable (k a ≤ k b))

instance {α β : Type} [LinearOrder β] (k : α → β) : DecidableRel (byKeyGE k) :=
  fun a b => inferInstanceAs (Decidable (k b ≤ k a))

instance {α β : Type} [LinearOrder β] (k : α → β) : IsTotal α (byKeyLE k) :=
  ⟨fun a b => le_total (k a) (k b)⟩

instance {α β : Type} [LinearOrder β] (k : α → β) : IsTrans α (byKeyLE k) :=
  ⟨fun _ _ _ h1 h2 => le_trans h1 h2⟩

instance {α β : Type} [LinearOrder β] (k : α → β) : IsTotal α (byKeyGE k) :=
  ⟨fun a b => le_total (k b) (k a)⟩

instance {α β : Type} [LinearOrder β] (k : α → β) : IsTrans α (byKeyGE k) :=
  ⟨fun _ _ _ h1 h2 => le_trans h2 h1⟩

/-! ## Event likes (srv_event_mongo.py, toggle_like) -/

/-- The like-relevant part of an event document: the `likes` array of user
ids and the denormalized `like_count`. -/
structure EventLikes where
  likes : List Nat
  like_count : Int
deriving DecidableEq, Repr

/-- `EventMongoService.toggle_like` on an existing event: if the user id is
in `likes`, `$pull` it and `$inc like_count` by -1 (action "unliked"),
otherwise `$addToSet` it and `$inc like_count` by 1 (action "liked").  The
returned Bool is the response's `is_liked` flag. -/
def toggle_like (e : EventLikes) (user : Nat) : EventLikes × Bool :=
  if user ∈ e.likes then
    ({ likes := pullElem e.likes user, like_count := e.like_count - 1 }, false)
  else
    ({ likes := addToSet e.likes user, like_count := e.like_count + 1 }, true)

/-! ## Users: follow / unfollow (srv_user_mongo.py) -/

/-- The follow-relevant part of a user document. -/
structure UserDoc where
  following : List Nat
  followers : List Nat
  following_count : Int
  followers_count : Int
deriving DecidableEq, Repr

/-- The `users` collection, addressed by user id (`find_one` by `_id`). -/
def FollowDB : Type := Nat → Option UserDoc

/-- MongoDB `update_one({"_id": id}, ...)`: applies the modification to the
document with that id when it exists, and matches nothing otherwise. -/
def updateDoc (db : FollowDB) (id : Nat) (f : UserDoc → UserDoc) : FollowDB :=
  fun y => if y = id then (db id).map f else db y

/-- `UserMongoService.follow_user`.  Rejects following yourself with a 400
BadRequest before touching the store; 404 when the target does not exist;
returns `false` ("already following", no update) when the target is already
in the actor's `following`; otherwise `$addToSet`/`$inc` on the actor's
`following`/`following_count` and then on the target's
`followers`/`followers_count`, returning `true`. -/
def follow_user (db : FollowDB) (current_user_id target_user_id : Nat) :
    Except SvcError (FollowDB × Bool) :=
  if current_user_id = target_user_id then .error .badRequest
  else
    match db target_user_id with
    | none => .error .notFound
    | some _ =>
      match db current_user_id with
      | none => .error .attributeError
      | some current_user =>
        if target_user_id ∈ current_user.following then .ok (db, false)
        else
          let db1 := updateDoc db current_user_id (fun u =>
            { u with following := addToSet u.following target_user_id,
                     following_count := u.following_count + 1 })
          let db2 := updateDoc db1 target_user_id (fun u =>
            { u with followers := addToSet u.followers current_user_id,
                     followers_count := u.followers_count + 1 })
          .ok (db2, true)

/-- `UserMongoService.unfollow_user`: `false` ("not following", no update)
when the target is not in the actor's `following`, otherwise the symmetric
`$pull`/`$inc -1` pair of updates. -/
def unfollow_user (db : FollowDB) (current_user_id target_user_id : Nat) :
    Except SvcError (FollowDB × Bool) :=
  match db current_user_id with
  | none => .error .attributeError
  | some current_user =>
    if target_user_id ∈ current_user.following then
      let db1 := updateDoc db current_user_id (fun u =>
        { u with following := pullElem u.following target_user_id,
                 following_count := u.following_count - 1 })
      let db2 := updateDoc db1 target_user_id (fun u =>
        { u with followers := pullElem u.followers current_user_id,
                 followers_count := u.followers_count - 1 })
      .ok (db2, true)
    else .ok (db, false)

/-- `UserMongoService.is_following`: membership of the target in the actor's
`following` array (false when the actor does not resolve). -/
def is_following (db : FollowDB) (current_user_id target_user_id : Nat) : Bool :=
  match db current_user_id with
  | none => false
  | some current_user => target_user_id ∈ current_user.following

/-! ## Reviews (srv_review_mongo.py) -/

/-- A document of the `reviews` collection (the fields the rating claims
need; `user_name`/`user_avatar`/timestamps carry no derived state). -/
structure Review where
  rid : Nat
  event_id : Nat
  user_id : Nat
  rating : ℚ
  comment : String
deriving DecidableEq, Repr

/-- The two denormalized rating fields written through to the owning event
document. -/
structure EventStats where
  average_rating : ℚ
  review_count : Nat
deriving DecidableEq, Repr

/-- The state the review service touches: the `reviews` collection and, per
event id, the stats fields of the `events` collection. -/
structure ReviewState where
  reviews : List Review
  events : Nat → Option EventStats

/-- `ReviewMongoService.get_user_review_for_event`: `find_one` on the
`(event_id, user_id)` pair. -/
def get_user_review_for_event (s : ReviewState) (event_id user_id : Nat) : Option Review :=
  s.reviews.find? (fun r => r.event_id == event_id && r.user_id == user_id)

/-- `ReviewMongoService.get_event_average_rating`: the aggregation pipeline
`$match event_id` then `$group {$avg rating, $sum 1}`; an empty match yields
`{average_rating: 0.0, total_reviews: 0}`, otherwise the average is rounded
to one decimal. -/
def get_event_average_rating (s : ReviewState) (event_id : Nat) : EventStats :=
  let rs := s.reviews.filter (fun r => r.event_id == event_id)
  if rs.isEmpty then ⟨0, 0⟩
  else ⟨round1 ((rs.map Review.rating).sum / (rs.length : ℚ)), rs.length⟩

/-- `ReviewMongoService._update_event_stats`: recompute the aggregate and
`$set` both fields on the event document (a no-op when the event document
does not exist, as `update_one` then matches nothing). -/
def update_event_stats (s : ReviewState) (event_id : Nat) : ReviewState :=
  let st := get_event_average_rating s event_id
  { s with events := fun y => if y = event_id then (s.events event_id).map (fun _ => st)
                              else s.events y }

/-- `ReviewMongoService.create_review`: 404 when the event does not exist,
Conflict (DUPLICATE_ENTRY) when the actor already has a review for the
event — both raised before `insert_one`, so they leave the state untouched —
otherwise insert the review and recompute the event stats. -/
def create_review (s : ReviewState) (event_id user_id : Nat) (rating : ℚ)
    (comment : String) (rid : Nat) : Except SvcError (ReviewState × Review) :=
  match s.events event_id with
  | none => .error .notFound
  | some _ =>
    match get_user_review_for_event s event_id user_id with
    | some _ => .error .duplicateEntry
    | none =>
      let r : Review := ⟨rid, event_id, user_id, rating, comment⟩
      let s1 : ReviewState := { s with reviews := s.reviews ++ [r] }
      .ok (update_event_stats s1 event_id, r)

/-- The state after a `create_review` call: the new state on success, the
unchanged input state when the call raised (both raises precede the insert). -/
def create_review_final (s : ReviewState) (event_id user_id : Nat) (rating : ℚ)
    (comment : String) (rid : Nat) : ReviewState :=
  match create_review s event_id user_id rating comment rid with
  | .ok (s', _) => s'
  | .error _ => s

/-- MongoDB `update_one`: modify the first matching document only. -/
def updateFirst (p : Review → Bool) (f : Review → Review) : List Review → List Review
  | [] => []
  | r :: rs => if p r then f r :: rs else r :: updateFirst p f rs

/-- `ReviewMongoService.update_review`: 404 when the review id does not
resolve, Forbidden unless the caller owns it; `$set` the provided fields;
the event stats are recomputed only when a rating was provided; the updated
review is re-fetched for the response. -/
def update_review (s : ReviewState) (rid user_id : Nat) (rating? : Option ℚ)
    (comment? : Option String) : Except SvcError (ReviewState × Review) :=
  match s.reviews.find? (fun r => r.rid == rid) with
  | none => .error .notFound
  | some review =>
    if review.user_id ≠ user_id then .error .forbidden
    else
      let upd : Review → Review := fun r =>
        { r with rating := rating?.getD r.rating, comment := comment?.getD r.comment }
      let s1 : ReviewState :=
        { s with reviews := updateFirst (fun r => r.rid == rid) upd s.reviews }
      let s2 := if rating?.isSome then update_event_stats s1 review.event_id else s1
      match s2.reviews.find? (fun r => r.rid == rid) with
      | some updated => .ok (s2, updated)
      | none => .error .attributeError

/-- `ReviewMongoService.delete_review`: 404 when the review id does not
resolve, Forbidden unless the caller is the owner or an admin; `delete_one`
the review, then recompute the owning event's stats. -/
def delete_review (s : ReviewState) (rid user_id : Nat) (is_admin : Bool) :
    Except SvcError ReviewState :=
  match s.reviews.find? (fun r => r.rid == rid) with
  | none => .error .notFound
  | some review =>
    if !is_admin && review.user_id ≠ user_id then .error .forbidden
    else
      let s1 : ReviewState := { s with reviews := s.reviews.eraseP (fun r => r.rid == rid) }
      .ok (update_event_stats s1 review.event_id)

/-! ## Relevance scoring (utils/recommendation.py) -/

/-- Python `s.lower()` on the characters of a string (per-character lowering;
none of the proved properties depends on the case table itself, both sides of
every statement normalize with this same function). -/
def lowerChars (s : String) : List Char :=
  s.data.map Char.toLower

/-- Python `s.strip()`: drop leading and trailing whitespace. -/
def stripChars (l : List Char) : List Char :=
  ((l.dropWhile Char.isWhitespace).reverse.dropWhile Char.isWhitespace).reverse

/-- The normalization `h.lower().strip()` applied to every hobby and
category before comparison. -/
def normKeyword (s : String) : List Char :=
  stripChars (lowerChars s)

/-- The predefined related-keyword table of `are_related_keywords`
(Vietnamese cultural context), as pairs of normalized keywords. -/
def relatedPairs : List (List Char × List Char) :=
  [("văn hóa".data, "lễ hội".data),
   ("văn hóa".data, "truyền thống".data),
   ("âm nhạc".data, "ca nhạc".data),
   ("âm nhạc".data, "nhạc sống".data),
   ("thể thao".data, "bóng đá".data),
   ("thể thao".data, "chạy bộ".data),
   ("nghệ thuật".data, "hội họa".data),
   ("nghệ thuật".data, "triển lãm".data),
   ("ẩm thực".data, "món ăn".data),
   ("ẩm thực".data, "nấu ăn".data),
   ("du lịch".data, "khám phá".data),
   ("du lịch".data, "phượt".data),
   ("tâm linh".data, "thiền".data),
   ("tâm linh".data, "chùa".data),
   ("công nghệ".data, "khoa học".data),
   ("công nghệ".data, "AI".data)]

/-- `are_related_keywords(word1, word2)`: the source sorts the two words into
a tuple and checks that tuple and its reversal against the table, which is
exactly an undirected membership test of the unordered pair, the form used
here. -/
def are_related_keywords (word1 word2 : List Char) : Bool :=
  relatedPairs.contains (word1, word2) || relatedPairs.contains (word2, word1)

/-- The contribution of one (hobby, category) pair inside the double loop of
`calculate_relevance_score`: 10 for an exact match of the normalized strings,
else 5 when one contains the other as a substring, else 2 for a related
keyword pair, else 0. -/
def pairScore (hobby category : List Char) : ℤ :=
  if hobby = category then 10
  else if hobby <:+: category ∨ category <:+: hobby then 5
  else if are_related_keywords hobby category then 2
  else 0

/-- `calculate_relevance_score(user_hobbies, event_categories)`: 0 when
either list is empty, otherwise the double loop accumulating `pairScore`
over every (hobby, category) pair of the normalized lists.  The Python
function returns a float, but every reachable value is a sum of the integers
10, 5, 2 and 0, represented exactly; it is modelled as `ℤ`. -/
def calculate_relevance_score (user_hobbies event_categories : List String) : ℤ :=
  if user_hobbies = [] ∨ event_categories = [] then 0
  else
    let hobbies_lower := user_hobbies.map normKeyword
    let categories_lower := event_categories.map normKeyword
    hobbies_lower.foldl
      (fun score hobby =>
        categories_lower.foldl (fun score2 category => score2 + pairScore hobby category) score)
      0

/-- The score as the spec states it: the sum, over every (interest, tag)
pair of the normalized lists with no deduplication, of the per-pair value. -/
def specRelevanceScore (interests tags : List String) : ℤ :=
  ((interests.map normKeyword).map
    (fun h => ((tags.map normKeyword).map (fun c => pairScore h c)).sum)).sum

/-! ## Event documents and discovery (srv_event_mongo.py) -/

/-- The part of an event document the discovery claims read: the searched
text fields, the category tags, the visibility flag (`none` models a record
where `is_visible` is absent), the sort key `created_at` and the optional
GeoJSON coordinate pair `[lng, lat]` (`none` models a missing or null
`location.coordinates`). -/
structure EventDoc where
  name : String
  intro : String
  history : String
  city : String
  province : String
  categories : List String
  is_visible : Option Bool
  created_at : Int
  coords : Option (List ℚ)
deriving DecidableEq, Repr

/-- The public-listing visibility predicate
`{"$or": [{"is_visible": True}, {"is_visible": {"$exists": False}}]}`. -/
def visMatch (d : EventDoc) : Bool :=
  d.is_visible == some true || d.is_visible == none

/-- `EventMongoService.get_all(page, page_size, include_hidden)`: filter by
visibility unless `include_hidden`, count the total over the full filter,
sort newest first, then `skip((page-1)*page_size).limit(page_size)`; the
metadata has `has_more = total > page * page_size`.  Returns
(items, total, has_more). -/
def get_all (docs : List EventDoc) (page page_size : Nat) (include_hidden : Bool) :
    List EventDoc × Nat × Bool :=
  let filtered := if include_hidden then docs else docs.filter visMatch
  let total := filtered.length
  let sorted := List.insertionSort (byKeyGE EventDoc.created_at) filtered
  let items := (sorted.drop ((page - 1) * page_size)).take page_size
  (items, total, decide (page * page_size < total))

/-- `rank_events_by_relevance(events, user_hobbies, include_score=True)`:
score every event against the hobbies and sort descending by score; the
Python sort is stable, so ties keep the input (newest-first) order.  Each
event is paired with its `relevance_score`. -/
def rank_events_by_relevance (events : List EventDoc) (user_hobbies : List String) :
    List (EventDoc × ℤ) :=
  let scored := events.map (fun e => (e, calculate_relevance_score user_hobbies e.categories))
  List.insertionSort (byKeyGE Prod.snd) scored

/-- `EventMongoService.get_recommended_events(user_hobbies, limit)`: rank the
visible events, drop zero-score entries, truncate to `limit`. -/
def get_recommended_events (user_hobbies : List String) (limit : Nat)
    (docs : List EventDoc) : List (EventDoc × ℤ) :=
  let ranked := rank_events_by_relevance (docs.filter visMatch) user_hobbies
  (ranked.filter (fun e => 0 < e.2)).take limit

/-- The keyword parameters accepted by `EventMongoService.get_all`, read off
its signature `get_all(self, page=1, page_size=20, include_hidden=False,
user_id=None)`. -/
def get_all_keyword_params : List String :=
  ["page", "page_size", "include_hidden", "user_id"]

/-- The endpoint `GET /recommendations/{user_id}`
(api_event_mongo.py, get_recommendations): when the user's hobby list is
empty it runs `event_service.get_all(limit=limit)` — a call that only
succeeds if `get_all` accepts a keyword parameter named "limit", and raises
`TypeError` otherwise (re-raised by the handler as a CustomException) —
and otherwise returns `get_recommended_events`. -/
def get_recommendations_endpoint (user_hobbies : List String) (limit : Nat)
    (docs : List EventDoc) : Except SvcError (List EventDoc) :=
  if user_hobbies = [] then
    if "limit" ∈ get_all_keyword_params then
      .ok (get_all docs 1 20 false).1
    else .error .typeError
  else
    .ok ((get_recommended_events user_hobbies limit docs).map Prod.fst)

/-! ## Nearby events (srv_event_mongo.py, get_nearby_events; geo_utils.py) -/

/-- One row of a nearby-events response: the event together with the
`distance_km` field the service stores on it, which is the computed distance
rounded to two decimals. -/
structure NearbyItem where
  event : EventDoc
  distance_km : ℚ
deriving DecidableEq, Repr

/-- The accumulation loop of `get_nearby_events`: keep visible events whose
coordinate pair is present and well-formed (`[lng, lat]`, silently skipping
the rest), compute `dist(lat, lng, event_lat, event_lng)`, keep the event
when the distance is at most `radius_km`, and store `round(distance, 2)` as
`distance_km`.  `dist` abstracts `calculate_distance` of geo_utils.py, whose
haversine formula is floating-point trigonometry; every property proved of
the pipeline holds for an arbitrary distance oracle, hence for the haversine
one. -/
def nearby_candidates (dist : ℚ → ℚ → ℚ → ℚ → ℚ) (lat lng radius_km : ℚ)
    (docs : List EventDoc) : List NearbyItem :=
  (docs.filter visMatch).filterMap (fun e =>
    match e.coords with
    | some [event_lng, event_lat] =>
      let distance := dist lat lng event_lat event_lng
      if distance ≤ radius_km then some ⟨e, round2 distance⟩ else none
    | _ => none)

/-- `EventMongoService.get_nearby_events`: the candidate loop, then
`nearby_events.sort(key=lambda x: x["distance_km"])` (a stable ascending
sort on the stored, rounded distance), then truncation to `limit`. -/
def get_nearby_events (dist : ℚ → ℚ → ℚ → ℚ → ℚ) (lat lng radius_km : ℚ)
    (limit : Nat) (docs : List EventDoc) : List NearbyItem :=
  (List.insertionSort (byKeyLE NearbyItem.distance_km)
    (nearby_candidates dist lat lng radius_km docs)).take limit

/-! ## Search (srv_event_mongo.py, search_events) -/

/-- Characters with a special meaning in the regex dialect MongoDB `$regex`
uses; a pattern free of them matches as literal text. -/
def regexSpecialChars : List Char :=
  ['.', '^', '$', '*', '+', '?', '(', ')', '[', ']', '\x7b', '\x7d', '|', '\\']

/-- A pattern that is literal text: no regex metacharacter occurs in it. -/
def isLiteralPattern (p : String) : Bool :=
  p.data.all (fun c => !regexSpecialChars.contains c)

/-- Case-insensitive substring test: what
`{field: {"$regex": pat, "$options": "i"}}` means when `pat` is a literal
pattern.  The source passes the free-text, city and province parameters into
the regex unescaped, so for input containing metacharacters the engine
diverges from this (see the counterexample). -/
def iContains (pat text : String) : Bool :=
  decide (lowerChars pat <:+: lowerChars text)

/-- Case-insensitive exact match: what the anchored pattern
`{"$regex": "^cat$", "$options": "i"}` means when `cat` is a literal
pattern. -/
def iEqStr (a b : String) : Bool :=
  lowerChars a == lowerChars b

/-- One clause of the filter document `search_events` builds, one
constructor per dict the source appends to `filter_conditions`.  The
constructors carry the regex pattern strings exactly as the source writes
them; in particular `catOr` holds the anchored `"^" ++ cat ++ "$"`
patterns. -/
inductive SearchClause where
  | visOr
  | textOr (query : String)
  | cityRe (city : String)
  | provinceRe (province : String)
  | catOr (patterns : List String)
deriving DecidableEq, Repr

/-- MongoDB evaluation of one clause against an event document, parametric
in the `$regex` engine `rmatch pattern value` (the "i" option included).
The engine is foreign code, modelled as an oracle the way the haversine
`calculate_distance` is; every composition property is proved for an
arbitrary engine.  `textOr` is the `$or` across
`name`/`content.intro`/`content.history`; `catOr` is the `$or` across the
per-category anchored patterns, and an array field matches a regex when
some element does. -/
def evalClause (rmatch : String → String → Bool) (c : SearchClause) (d : EventDoc) : Bool :=
  match c with
  | .visOr => visMatch d
  | .textOr query =>
      rmatch query d.name || rmatch query d.intro || rmatch query d.history
  | .cityRe city => rmatch city d.city
  | .provinceRe province => rmatch province d.province
  | .catOr patterns =>
      patterns.any (fun pat => d.categories.any (fun dc => rmatch pat dc))

/-- Python truthiness of an optional string parameter (`if query:`):
false for None and for the empty string. -/
def truthyStr : Option String → Bool
  | none => false
  | some s => !(s == "")

/-- Python truthiness of an optional list parameter (`if categories:`):
false for None and for the empty list. -/
def truthyList : Option (List String) → Bool
  | none => false
  | some l => !l.isEmpty

/-- The filter `search_events` builds: the visibility clause always, then one
clause per truthy parameter, the category patterns anchored as
`f"^\x7bcat\x7d$"`; the clauses are combined with `$and` (a one-clause list
is used bare, which evaluates identically). -/
def search_filter (query city province : Option String)
    (categories : Option (List String)) : List SearchClause :=
  [SearchClause.visOr]
    ++ (if truthyStr query then [SearchClause.textOr (query.getD "")] else [])
    ++ (if truthyStr city then [SearchClause.cityRe (city.getD "")] else [])
    ++ (if truthyStr province then [SearchClause.provinceRe (province.getD "")] else [])
    ++ (if truthyList categories then
          [SearchClause.catOr ((categories.getD []).map (fun cat => "^" ++ cat ++ "$"))]
        else [])

/-- Conjunctive evaluation of the built filter (`$and`) under a given
regex engine. -/
def evalFilter (rmatch : String → String → Bool) (cs : List SearchClause)
    (d : EventDoc) : Bool :=
  cs.all (fun c => evalClause rmatch c d)

/-- The search predicate group by group, at the level of the regex engine's
verdicts: every truthy parameter group must match (text OR-combined across
the three fields, categories OR-combined across the anchored patterns), the
groups are ANDed, the visibility predicate is always ANDed in, and
absent-or-falsy parameters impose nothing. -/
def specSearchMatchesOracle (rmatch : String → String → Bool)
    (query city province : Option String) (categories : Option (List String))
    (d : EventDoc) : Prop :=
  (d.is_visible = some true ∨ d.is_visible = none) ∧
  (∀ s, query = some s → s ≠ "" →
    (rmatch s d.name = true ∨ rmatch s d.intro = true ∨ rmatch s d.history = true)) ∧
  (∀ s, city = some s → s ≠ "" → rmatch s d.city = true) ∧
  (∀ s, province = some s → s ≠ "" → rmatch s d.province = true) ∧
  (∀ l, categories = some l → l ≠ [] →
    ∃ cat ∈ l, ∃ dc ∈ d.categories, rmatch ("^" ++ cat ++ "$") dc = true)

/-- The search predicate as the claim states it, with the amendment that a
provided-but-empty parameter (empty string, empty category list) is treated
as absent, following Python truthiness: the free-text query, when provided,
matches as a case-insensitive substring of the name or a long-text field
(OR across fields); city and province, when provided, as case-insensitive
substrings; at least one provided category matches a record category
case-insensitively and exactly; the groups are ANDed; the visibility
predicate is always ANDed in.  The engine realizes these substring/exact
leaves exactly on metacharacter-free parameters. -/
def specSearchMatches (query city province : Option String)
    (categories : Option (List String)) (d : EventDoc) : Prop :=
  (d.is_visible = some true ∨ d.is_visible = none) ∧
  (∀ s, query = some s → s ≠ "" →
    (iContains s d.name = true ∨ iContains s d.intro = true ∨ iContains s d.history = true)) ∧
  (∀ s, city = some s → s ≠ "" → iContains s d.city = true) ∧
  (∀ s, province = some s → s ≠ "" → iContains s d.province = true) ∧
  (∀ l, categories = some l → l ≠ [] →
    ∃ cat ∈ l, ∃ dc ∈ d.categories, iEqStr cat dc = true)

/-- The search predicate read literally from the claim, substring/exact
leaves for every input: whenever a category list is provided (even an empty
one), at least one of its members must match a record category, and the
free-text/city/province parameters match as substrings whatever characters
they contain. -/
def specSearchMatchesLiteral (query city province : Option String)
    (categories : Option (List String)) (d : EventDoc) : Prop :=
  (d.is_visible = some true ∨ d.is_visible = none) ∧
  (∀ s, query = some s → s ≠ "" →
    (iContains s d.name = true ∨ iContains s d.intro = true ∨ iContains s d.history = true)) ∧
  (∀ s, city = some s → s ≠ "" → iContains s d.city = true) ∧
  (∀ s, province = some s → s ≠ "" → iContains s d.province = true) ∧
  (∀ l, categories = some l →
    ∃ cat ∈ l, ∃ dc ∈ d.categories, iEqStr cat dc = true)

/-- `EventMongoService.search_events` under a given regex engine: build the
filter, count the total over it, sort the matches newest first, window them
with `skip((page-1)*page_size).limit(page_size)`; the metadata has
`has_more = total > page * page_size`.  Returns (items, total, has_more). -/
def search_events (rmatch : String → String → Bool)
    (query city province : Option String)
    (categories : Option (List String)) (page page_size : Nat)
    (docs : List EventDoc) : List EventDoc × Nat × Bool :=
  let flt := search_filter query city province categories
  let matched := docs.filter (fun d => evalFilter rmatch flt d)
  let total := matched.length
  let sorted := List.insertionSort (byKeyGE EventDoc.created_at) matched
  let items := (sorted.drop ((page - 1) * page_size)).take page_size
  (items, total, decide (page * page_size < total))

/-- A regex-engine model of the literal fragment: an anchored pattern
`^inner$` matches exactly, any other pattern matches as a substring, both
case-insensitively.  It agrees with the real engine on literal patterns and
on their anchored forms. -/
def engineModel (pat text : String) : Bool :=
  if pat.data.head? = some '^' && pat.data.getLast? = some '$' then
    iEqStr (String.mk ((pat.data.drop 1).dropLast)) text
  else iContains pat text

/-- Matching of a regex whose only metacharacter is `.` (any one character)
against a prefix of the text. -/
def dotMatchHere : List Char → List Char → Bool
  | [], _ => true
  | _ :: _, [] => false
  | p :: ps, t :: ts => (p == '.' || p == t) && dotMatchHere ps ts

/-- Unanchored search of a dot-fragment regex at every position of the
text. -/
def dotSearch (ps : List Char) : List Char → Bool
  | [] => dotMatchHere ps []
  | t :: ts => dotMatchHere ps (t :: ts) || dotSearch ps ts

/-- The `$regex` engine with the "i" option on the fragment whose only
metacharacter is `.`: PCRE's dot matches any character, so `"a.c"` matches
`"abc"`. -/
def dotOracle (pat text : String) : Bool :=
  dotSearch (lowerChars pat) (lowerChars text)

/-! ### Concrete fixtures used by witnesses, counterexamples and examples -/

/-- Two users, ids 0 and 1, with empty follow state. -/
def followDBW : FollowDB := fun n =>
  if n = 0 then some ⟨[], [], 0, 0⟩
  else if n = 1 then some ⟨[], [], 0, 0⟩
  else none

/-- Two users where user 0 already follows user 1 (consistent state:
`following_count = 1`, `followers_count = 1`). -/
def followDBPre : FollowDB := fun n =>
  if n = 0 then some ⟨[1], [], 1, 0⟩
  else if n = 1 then some ⟨[], [0], 0, 1⟩
  else none

/-- A store with one event (id 1, stats already written) and one review of
it by user 2. -/
def reviewStateW : ReviewState :=
  { reviews := [⟨10, 1, 2, 5, "great"⟩],
    events := fun n => if n = 1 then some ⟨5, 1⟩ else none }

/-- A minimal visible event document. -/
def sampleEvent : EventDoc :=
  ⟨"e", "", "", "", "", [], some true, 0, none⟩

/-- A fully materialized filtered set of 15 visible rows. -/
def docs15 : List EventDoc := List.replicate 15 sampleEvent

/-- An event at raw distance 1.004 km under the oracle below. -/
def nearEventA : EventDoc := ⟨"A", "", "", "", "", [], some true, 0, some [0, 0]⟩

/-- An event at raw distance 1 km under the oracle below. -/
def nearEventB : EventDoc := ⟨"B", "", "", "", "", [], some true, 0, some [0, 1]⟩

/-- A distance oracle: 251/250 km (= 1.004) for event latitude 0, 1 km
otherwise — values a haversine distance takes on suitable coordinates. -/
def distC : ℚ → ℚ → ℚ → ℚ → ℚ := fun _ _ event_lat _ =>
  if event_lat = 0 then 251/250 else 1

/-- A visible record with no categories. -/
def searchDoc : EventDoc := ⟨"x", "", "", "", "", [], some true, 0, none⟩

/-- A visible record named "abc". -/
def docAbc : EventDoc := ⟨"abc", "", "", "", "", [], some true, 0, none⟩

/-! ## Theorems -/

theorem mem_pullElem {l : List Nat} {x y : Nat} :
    y ∈ pullElem l x ↔ y ∈ l ∧ y ≠ x := by
  simp [pullElem, List.mem_filter]

theorem not_mem_pullElem_self (l : List Nat) (x : Nat) : x ∉ pullElem l x := by
  simp [mem_pullElem]

theorem mem_addToSet {l : List Nat} {x y : Nat} :
    y ∈ addToSet l x ↔ y ∈ l ∨ y = x := by
  unfold addToSet
  by_cases h : x ∈ l
  · simp only [if_pos h]
    constructor
    · exact Or.inl
    · rintro (hy | rfl) <;> [exact hy; exact h]
  · simp [if_neg h, List.mem_append]

theorem pullElem_addToSet_of_not_mem {l : List Nat} {x : Nat} (h : x ∉ l) :
    pullElem (addToSet l x) x = l := by
  have hfix : pullElem l x = l := by
    refine List.filter_eq_self.mpr (fun a ha => ?_)
    simp only [decide_eq_true_eq]
    rintro rfl
    exact h ha
  simp only [addToSet, if_neg h, pullElem, List.filter_append]
  simpa [pullElem] using hfix

/-- C1: applying `toggle_like` twice in succession by the same actor on the
same event returns the event's liker set (up to membership) and its
`like_count` to their original values; the first call removes the actor and
decrements the counter when the actor is a member, otherwise adds the actor
and increments it, and the second call performs the opposite transition. -/
theorem toggle_like_involution (e : EventLikes) (u : Nat) :
    (u ∈ e.likes →
      u ∉ (toggle_like e u).1.likes ∧
      (toggle_like e u).1.like_count = e.like_count - 1 ∧ (toggle_like e u).2 = false) ∧
    (u ∉ e.likes →
      u ∈ (toggle_like e u).1.likes ∧
      (toggle_like e u).1.like_count = e.like_count + 1 ∧ (toggle_like e u).2 = true) ∧
    (∀ x, x ∈ (toggle_like (toggle_like e u).1 u).1.likes ↔ x ∈ e.likes) ∧
    (toggle_like (toggle_like e u).1 u).1.like_count = e.like_count := by
  by_cases hu : u ∈ e.likes
  · have h1 : toggle_like e u
        = ({ likes := pullElem e.likes u, like_count := e.like_count - 1 }, false) := by
      simp [toggle_like, hu]
    have hnot : u ∉ pullElem e.likes u := not_mem_pullElem_self _ _
    have h2 : toggle_like (toggle_like e u).1 u
        = ({ likes := addToSet (pullElem e.likes u) u,
             like_count := e.like_count - 1 + 1 }, true) := by
      rw [h1]
      simp [toggle_like, hnot]
    refine ⟨fun _ => ⟨by rw [h1]; exact hnot, by rw [h1], by rw [h1]⟩,
            fun h => (h hu).elim, ?_, ?_⟩
    · intro x
      rw [h2]
      by_cases hx : x = u
      · subst hx
        simp [mem_addToSet, hu]
      · simp [mem_addToSet, mem_pullElem, hx]
    · rw [h2]
      show e.like_count - 1 + 1 = e.like_count
      omega
  · have h1 : toggle_like e u
        = ({ likes := addToSet e.likes u, like_count := e.like_count + 1 }, true) := by
      simp [toggle_like, hu]
    have hmem : u ∈ addToSet e.likes u := by simp [mem_addToSet]
    have h2 : toggle_like (toggle_like e u).1 u
        = ({ likes := pullElem (addToSet e.likes u) u,
             like_count := e.like_count + 1 - 1 }, false) := by
      rw [h1]
      simp [toggle_like, hmem]
    refine ⟨fun h => (hu h).elim,
            fun _ => ⟨by rw [h1]; exact hmem, by rw [h1], by rw [h1]⟩, ?_, ?_⟩
    · intro x
      rw [h2, pullElem_addToSet_of_not_mem hu]
    · rw [h2]
      show e.like_count + 1 - 1 = e.like_count
      omega

theorem updateDoc_self (db : FollowDB) (id : Nat) (f : UserDoc → UserDoc) :
    updateDoc db id f id = (db id).map f := by
  simp [updateDoc]

theorem updateDoc_other (db : FollowDB) (id : Nat) (f : UserDoc → UserDoc)
    {y : Nat} (h : y ≠ id) : updateDoc db id f y = db y := by
  simp [updateDoc, h]

/-- C10: calling follow with the user's own identifier as target is rejected
with BadRequest before any read or write (the check is the first statement,
so the rejection holds for every store state and the state is left
untouched); moreover a successful follow call never puts a user into their
own following or followers set. -/
theorem follow_user_self_rejected (db : FollowDB) (u : Nat) :
    follow_user db u u = .error .badRequest ∧
    (∀ a b db' res, follow_user db a b = .ok (db', res) →
      (∀ w d, db w = some d → w ∉ d.following ∧ w ∉ d.followers) →
      (∀ w d', db' w = some d' → w ∉ d'.following ∧ w ∉ d'.followers)) := by
  constructor
  · simp [follow_user]
  · intro a b db' res hok hinv w d' hw
    unfold follow_user at hok
    split at hok
    · cases hok
    · rename_i hab
      split at hok
      · cases hok
      · rename_i tdoc htgt
        split at hok
        · cases hok
        · rename_i adoc hcur
          split at hok
          · rename_i hmem
            simp only [Except.ok.injEq, Prod.mk.injEq] at hok
            obtain ⟨rfl, -⟩ := hok
            exact hinv w d' hw
          · rename_i hmem
            simp only [Except.ok.injEq, Prod.mk.injEq] at hok
            obtain ⟨hdb', -⟩ := hok
            subst hdb'
            by_cases hwb : w = b
            · subst hwb
              rw [updateDoc_self, updateDoc_other db a _ (Ne.symm hab), htgt] at hw
              simp only [Option.map_some', Option.some.injEq] at hw
              subst hw
              have hb := hinv w tdoc htgt
              refine ⟨hb.1, ?_⟩
              simp only [mem_addToSet]
              rintro (h | rfl)
              · exact hb.2 h
              · exact hab rfl
            · rw [updateDoc_other _ b _ hwb] at hw
              by_cases hwa : w = a
              · subst hwa
                rw [updateDoc_self, hcur] at hw
                simp only [Option.map_some', Option.some.injEq] at hw
                subst hw
                have ha := hinv w adoc hcur
                refine ⟨?_, ha.2⟩
                simp only [mem_addToSet]
                rintro (h | rfl)
                · exact ha.1 h
                · exact hwb rfl
              · rw [updateDoc_other _ a _ hwa] at hw
                exact hinv w d' hw

/-- C2, amended: for distinct users A and B that both exist, provided A is
not already following B (B is not in A's `following` and, dually, A is not
in B's `followers`), follow(A, B) then unfollow(A, B) returns the store —
A's following set and `following_count`, B's followers set and
`followers_count` — to exactly its original state and leaves
`is_following(A, B)` false; and a second follow(A, B) with no intervening
unfollow changes no state and returns the "no change" result `false`. -/
theorem follow_unfollow_roundtrip (db : FollowDB) (A B : Nat) (a b : UserDoc)
    (hAB : A ≠ B) (hA : db A = some a) (hB : db B = some b)
    (hnf : B ∉ a.following) (hnr : A ∉ b.followers) :
    ∃ db1, follow_user db A B = .ok (db1, true) ∧
      follow_user db1 A B = .ok (db1, false) ∧
      unfollow_user db1 A B = .ok (db, true) ∧
      is_following db A B = false := by
  refine ⟨updateDoc (updateDoc db A (fun u =>
      { u with following := addToSet u.following B,
               following_count := u.following_count + 1 })) B
      (fun u => { u with followers := addToSet u.followers A,
                         followers_count := u.followers_count + 1 }), ?_, ?_, ?_, ?_⟩
  · simp [follow_user, hAB, hA, hB, hnf]
  · have h1A : updateDoc (updateDoc db A (fun u =>
        { u with following := addToSet u.following B,
                 following_count := u.following_count + 1 })) B
        (fun u => { u with followers := addToSet u.followers A,
                           followers_count := u.followers_count + 1 }) A
        = some { a with following := addToSet a.following B,
                        following_count := a.following_count + 1 } := by
      rw [updateDoc_other _ B _ hAB, updateDoc_self, hA, Option.map_some']
    have h1B : updateDoc (updateDoc db A (fun u =>
        { u with following := addToSet u.following B,
                 following_count := u.following_count + 1 })) B
        (fun u => { u with followers := addToSet u.followers A,
                           followers_count := u.followers_count + 1 }) B
        = some { b with followers := addToSet b.followers A,
                        followers_count := b.followers_count + 1 } := by
      rw [updateDoc_self, updateDoc_other _ A _ (Ne.symm hAB), hB, Option.map_some']
    have hmem : B ∈ addToSet a.following B := by simp [mem_addToSet]
    simp [follow_user, hAB, h1A, h1B, hmem]
  · have h1A : updateDoc (updateDoc db A (fun u =>
        { u with following := addToSet u.following B,
                 following_count := u.following_count + 1 })) B
        (fun u => { u with followers := addToSet u.followers A,
                           followers_count := u.followers_count + 1 }) A
        = some { a with following := addToSet a.following B,
                        following_count := a.following_count + 1 } := by
      rw [updateDoc_other _ B _ hAB, updateDoc_self, hA, Option.map_some']
    have hmem : B ∈ addToSet a.following B := by simp [mem_addToSet]
    have hback : updateDoc (updateDoc (updateDoc (updateDoc db A (fun u =>
        { u with following := addToSet u.following B,
                 following_count := u.following_count + 1 })) B
        (fun u => { u with followers := addToSet u.followers A,
                           followers_count := u.followers_count + 1 })) A
        (fun u => { u with following := pullElem u.following B,
                           following_count := u.following_count - 1 })) B
        (fun u => { u with followers := pullElem u.followers A,
                           followers_count := u.followers_count - 1 })
        = db := by
      funext y
      by_cases hyB : y = B
      · subst hyB
        rw [updateDoc_self, updateDoc_other _ A _ (Ne.symm hAB), updateDoc_self,
            updateDoc_other _ A _ (Ne.symm hAB), hB, Option.map_some', Option.map_some']
        rw [pullElem_addToSet_of_not_mem hnr]
        simp
      · rw [updateDoc_other _ B _ hyB]
        by_cases hyA : y = A
        · subst hyA
          rw [updateDoc_self, updateDoc_other _ B _ hAB, updateDoc_self, hA,
              Option.map_some', Option.map_some']
          rw [pullElem_addToSet_of_not_mem hnf]
          simp
        · rw [updateDoc_other _ A _ hyA, updateDoc_other _ B _ hyB,
              updateDoc_other _ A _ hyA]
    simp only [unfollow_user, h1A]
    rw [if_pos hmem]
    rw [hback]
  · simp [is_following, hA, hnf]

theorem follow_unfollow_roundtrip_witness :
    ∃ db1, follow_user followDBW 0 1 = .ok (db1, true) ∧
      follow_user db1 0 1 = .ok (db1, false) ∧
      unfollow_user db1 0 1 = .ok (followDBW, true) ∧
      is_following followDBW 0 1 = false :=
  follow_unfollow_roundtrip followDBW 0 1 ⟨[], [], 0, 0⟩ ⟨[], [], 0, 0⟩
    (by decide) rfl rfl (by decide) (by decide)

/-- C2 counterexample to the unconditional claim: when user 0 already
follows user 1, follow(0, 1) is the documented no-op, and the subsequent
unfollow(0, 1) decrements `following_count` from 1 to 0 — the pair of calls
does not leave the state net-unchanged. -/
theorem follow_unfollow_not_net_unchanged :
    follow_user followDBPre 0 1 = .ok (followDBPre, false) ∧
    (unfollow_user followDBPre 0 1).map (fun p => (p.1 0).map UserDoc.following_count)
      = .ok (some 0) ∧
    (followDBPre 0).map UserDoc.following_count = some 1 :=
  ⟨rfl, rfl, rfl⟩

/-- C3: when the event exists and the actor already has a review for it,
`create_review` is rejected with the Conflict (DUPLICATE_ENTRY) error, no
review document is inserted, and the event's `average_rating` and
`review_count` are exactly as before the rejected attempt (the whole state
is unchanged). -/
theorem create_review_duplicate_conflict (s : ReviewState) (event_id user_id : Nat)
    (rating : ℚ) (comment : String) (rid : Nat)
    (hev : (s.events event_id).isSome = true)
    (hex : (get_user_review_for_event s event_id user_id).isSome = true) :
    create_review s event_id user_id rating comment rid = .error .duplicateEntry ∧
    create_review_final s event_id user_id rating comment rid = s := by
  obtain ⟨st, hst⟩ := Option.isSome_iff_exists.mp hev
  obtain ⟨r0, hr0⟩ := Option.isSome_iff_exists.mp hex
  have h : create_review s event_id user_id rating comment rid = .error .duplicateEntry := by
    simp [create_review, hst, hr0]
  exact ⟨h, by simp [create_review_final, h]⟩

theorem create_review_duplicate_conflict_witness :
    create_review reviewStateW 1 2 3 "again" 11 = .error .duplicateEntry ∧
    create_review_final reviewStateW 1 2 3 "again" 11 = reviewStateW :=
  create_review_duplicate_conflict reviewStateW 1 2 3 "again" 11 (by decide) (by decide)

theorem update_event_stats_reviews (s : ReviewState) (event_id : Nat) :
    (update_event_stats s event_id).reviews = s.reviews := rfl

theorem update_event_stats_events_self (s : ReviewState) (event_id : Nat) :
    (update_event_stats s event_id).events event_id
      = (s.events event_id).map (fun _ => get_event_average_rating s event_id) := by
  simp [update_event_stats]

theorem get_event_average_rating_congr {s s' : ReviewState} (event_id : Nat)
    (h : s.reviews = s'.reviews) :
    get_event_average_rating s event_id = get_event_average_rating s' event_id := by
  simp [get_event_average_rating, h]

theorem get_event_average_rating_of_no_reviews {s : ReviewState} {event_id : Nat}
    (h : s.reviews.filter (fun r => r.event_id == event_id) = []) :
    get_event_average_rating s event_id = ⟨0, 0⟩ := by
  simp [get_event_average_rating, h]

theorem update_event_stats_spec (s : ReviewState) (event_id : Nat) :
    (update_event_stats s event_id).events event_id
      = (s.events event_id).map
          (fun _ => get_event_average_rating (update_event_stats s event_id) event_id) := by
  rw [update_event_stats_events_self]
  exact congrArg (fun g => Option.map g (s.events event_id))
    (funext fun _ => get_event_average_rating_congr event_id rfl)

/-- C9: on creation of a rating, on an update that sets a rating, and on
deletion of a rating, the owning event's `average_rating` and `review_count`
are written through as the full aggregation over all the ratings that remain
for that event in the post-mutation state — whatever values were stored
before; in particular, after deleting the last rating of an event both
fields recompute to 0. -/
theorem review_stats_recompute (s : ReviewState) (event_id user_id rid : Nat)
    (rating : ℚ) (comment : String) (rating? : Option ℚ) (comment? : Option String)
    (is_admin : Bool) :
    (∀ s' r, create_review s event_id user_id rating comment rid = .ok (s', r) →
      s'.events event_id
        = (s.events event_id).map (fun _ => get_event_average_rating s' event_id)) ∧
    (∀ s' r1 r0, rating?.isSome = true →
      s.reviews.find? (fun r => r.rid == rid) = some r0 →
      update_review s rid user_id rating? comment? = .ok (s', r1) →
      s'.events r0.event_id
        = (s.events r0.event_id).map (fun _ => get_event_average_rating s' r0.event_id)) ∧
    (∀ s' r0, s.reviews.find? (fun r => r.rid == rid) = some r0 →
      delete_review s rid user_id is_admin = .ok s' →
      s'.events r0.event_id
        = (s.events r0.event_id).map (fun _ => get_event_average_rating s' r0.event_id)) ∧
    (∀ s' r0, s.reviews.find? (fun r => r.rid == rid) = some r0 →
      delete_review s rid user_id is_admin = .ok s' →
      s'.reviews.filter (fun r => r.event_id == r0.event_id) = [] →
      s'.events r0.event_id = (s.events r0.event_id).map (fun _ => (⟨0, 0⟩ : EventStats))) := by
  refine ⟨?_, ?_, ?_, ?_⟩
  · intro s' r hok
    unfold create_review at hok
    split at hok
    · cases hok
    · split at hok
      · cases hok
      · simp only [Except.ok.injEq, Prod.mk.injEq] at hok
        obtain ⟨hs', -⟩ := hok
        subst hs'
        exact update_event_stats_spec _ _
  · intro s' r1 r0 hsome hfind hok
    obtain ⟨rv, rfl⟩ := Option.isSome_iff_exists.mp hsome
    unfold update_review at hok
    rw [hfind] at hok
    split at hok
    · cases hok
    · rename_i review heq
      have hrev : review = r0 := by injection heq with h; exact h.symm
      subst hrev
      split at hok
      · cases hok
      · simp only [Option.isSome_some, if_true] at hok
        split at hok
        · rename_i updated hupd
          simp only [Except.ok.injEq, Prod.mk.injEq] at hok
          obtain ⟨hs', -⟩ := hok
          subst hs'
          exact update_event_stats_spec _ _
        · cases hok
  · intro s' r0 hfind hok
    unfold delete_review at hok
    rw [hfind] at hok
    split at hok
    · cases hok
    · rename_i review heq
      have hrev : review = r0 := by injection heq with h; exact h.symm
      subst hrev
      split at hok
      · cases hok
      · simp only [Except.ok.injEq] at hok
        subst hok
        exact update_event_stats_spec _ _
  · intro s' r0 hfind hok hempty
    unfold delete_review at hok
    rw [hfind] at hok
    split at hok
    · cases hok
    · rename_i review heq
      have hrev : review = r0 := by injection heq with h; exact h.symm
      subst hrev
      split at hok
      · cases hok
      · simp only [Except.ok.injEq] at hok
        subst hok
        rw [update_event_stats_events_self]
        rw [update_event_stats_reviews] at hempty
        rw [get_event_average_rating_of_no_reviews hempty]

theorem window_length {α : Type} (l : List α) (k n : Nat) :
    ((l.drop k).take n).length = min n (l.length - k) := by
  simp [List.length_take, List.length_drop]

theorem window_has_more {α : Type} (l : List α) (page ps : Nat) (hp : 1 ≤ page) :
    (page * ps < l.length ↔
      (page - 1) * ps + ((l.drop ((page - 1) * ps)).take ps).length < l.length) := by
  rw [window_length]
  obtain ⟨m, rfl⟩ : ∃ m, page = m + 1 := ⟨page - 1, (Nat.succ_pred_eq_of_pos hp).symm⟩
  simp only [Nat.add_sub_cancel, Nat.add_mul, one_mul]
  omega

/-- C4: for every listing with `page ≥ 1`: `total` is the true count of all
rows matching the filter; the returned page holds exactly
`min(page_size, total - (page-1)*page_size)` rows (Nat subtraction truncates
at 0) of the newest-first sorted filtered set; and `has_more` is true
exactly when rows beyond the returned page exist.  Stated for both
`get_all` (visibility filter) and `search_events` (arbitrary search
parameters). -/
theorem pagination_window_spec (docs : List EventDoc) (page page_size : Nat)
    (include_hidden : Bool) (rmatch : String → String → Bool)
    (query city province : Option String)
    (categories : Option (List String)) (hpage : 1 ≤ page) :
    (get_all docs page page_size include_hidden).2.1
      = (if include_hidden then docs else docs.filter visMatch).length ∧
    (get_all docs page page_size include_hidden).1.length
      = min page_size
          ((get_all docs page page_size include_hidden).2.1 - (page - 1) * page_size) ∧
    ((get_all docs page page_size include_hidden).2.2 = true ↔
      (page - 1) * page_size + (get_all docs page page_size include_hidden).1.length
        < (get_all docs page page_size include_hidden).2.1) ∧
    List.Sorted (byKeyGE EventDoc.created_at) (get_all docs page page_size include_hidden).1 ∧
    (search_events rmatch query city province categories page page_size docs).2.1
      = (docs.filter (fun d => evalFilter rmatch (search_filter query city province categories) d)).length ∧
    (search_events rmatch query city province categories page page_size docs).1.length
      = min page_size
          ((search_events rmatch query city province categories page page_size docs).2.1
            - (page - 1) * page_size) ∧
    ((search_events rmatch query city province categories page page_size docs).2.2 = true ↔
      (page - 1) * page_size
        + (search_events rmatch query city province categories page page_size docs).1.length
        < (search_events rmatch query city province categories page page_size docs).2.1) := by
  refine ⟨rfl, ?_, ?_, ?_, rfl, ?_, ?_⟩
  · show (((List.insertionSort (byKeyGE EventDoc.created_at)
        (if include_hidden then docs else docs.filter visMatch)).drop
          ((page - 1) * page_size)).take page_size).length = _
    rw [window_length, List.length_insertionSort]
    rfl
  · show decide _ = true ↔ _
    rw [decide_eq_true_eq]
    have h := window_has_more (List.insertionSort (byKeyGE EventDoc.created_at)
      (if include_hidden then docs else docs.filter visMatch)) page page_size hpage
    rw [List.length_insertionSort] at h
    exact h
  · exact List.Pairwise.sublist
      ((List.take_sublist _ _).trans (List.drop_sublist _ _))
      (List.sorted_insertionSort _ _)
  · show (((List.insertionSort (byKeyGE EventDoc.created_at)
        (docs.filter (fun d => evalFilter rmatch (search_filter query city province categories) d))).drop
          ((page - 1) * page_size)).take page_size).length = _
    rw [window_length, List.length_insertionSort]
    rfl
  · show decide _ = true ↔ _
    rw [decide_eq_true_eq]
    have h := window_has_more (List.insertionSort (byKeyGE EventDoc.created_at)
      (docs.filter (fun d => evalFilter rmatch (search_filter query city province categories) d)))
      page page_size hpage
    rw [List.length_insertionSort] at h
    exact h

theorem pagination_window_spec_witness :
    (get_all docs15 1 10 false).2.1
      = (if false then docs15 else docs15.filter visMatch).length ∧
    (get_all docs15 1 10 false).1.length
      = min 10 ((get_all docs15 1 10 false).2.1 - (1 - 1) * 10) ∧
    ((get_all docs15 1 10 false).2.2 = true ↔
      (1 - 1) * 10 + (get_all docs15 1 10 false).1.length
        < (get_all docs15 1 10 false).2.1) ∧
    List.Sorted (byKeyGE EventDoc.created_at) (get_all docs15 1 10 false).1 ∧
    (search_events engineModel none none none none 1 10 docs15).2.1
      = (docs15.filter
          (fun d => evalFilter engineModel (search_filter none none none none) d)).length ∧
    (search_events engineModel none none none none 1 10 docs15).1.length
      = min 10
          ((search_events engineModel none none none none 1 10 docs15).2.1 - (1 - 1) * 10) ∧
    ((search_events engineModel none none none none 1 10 docs15).2.2 = true ↔
      (1 - 1) * 10 + (search_events engineModel none none none none 1 10 docs15).1.length
        < (search_events engineModel none none none none 1 10 docs15).2.1) :=
  pagination_window_spec docs15 1 10 false engineModel none none none none (by decide)

/-- The claim's concrete instance: 15 matching rows, `page_size = 10`:
page 1 returns 10 rows with `has_more = true`, page 2 returns the remaining
5 with `has_more = false`. -/
theorem pagination_fifteen_example :
    (get_all docs15 1 10 false).1.length = 10 ∧
    (get_all docs15 1 10 false).2.1 = 15 ∧
    (get_all docs15 1 10 false).2.2 = true ∧
    (get_all docs15 2 10 false).1.length = 5 ∧
    (get_all docs15 2 10 false).2.2 = false := by
  refine ⟨?_, ?_, ?_, ?_, ?_⟩ <;> decide

theorem foldl_add_map {α : Type} (f : α → ℤ) (l : List α) (a : ℤ) :
    l.foldl (fun acc x => acc + f x) a = a + (l.map f).sum := by
  induction l generalizing a with
  | nil => simp
  | cons x xs ih => simp [ih]; ring

theorem score_foldl_eq (cl hl : List (List Char)) (a : ℤ) :
    hl.foldl (fun score hobby =>
        cl.foldl (fun score2 category => score2 + pairScore hobby category) score) a
      = a + (hl.map (fun h => (cl.map (fun c => pairScore h c)).sum)).sum := by
  induction hl generalizing a with
  | nil => simp
  | cons h t ih =>
    simp only [List.foldl_cons, List.map_cons, List.sum_cons, ih, foldl_add_map]
    ring

theorem pairScore_nonneg (h c : List Char) : 0 ≤ pairScore h c := by
  unfold pairScore
  split_ifs <;> norm_num

/-- C5: the relevance score equals the sum over every (interest, tag) pair
of the normalized lists — with no deduplication — of: 10 on exact
case-insensitive match, else 5 on substring containment either way, else 2
on an undirected hit in the curated synonym table, else 0 (`pairScore`);
consequently it is non-negative for all inputs and 0 whenever either list is
empty. -/
theorem calculate_relevance_score_spec (interests tags : List String) :
    calculate_relevance_score interests tags = specRelevanceScore interests tags ∧
    0 ≤ calculate_relevance_score interests tags ∧
    (interests = [] ∨ tags = [] → calculate_relevance_score interests tags = 0) := by
  have heq : calculate_relevance_score interests tags = specRelevanceScore interests tags := by
    unfold calculate_relevance_score specRelevanceScore
    by_cases h : interests = [] ∨ tags = []
    · rw [if_pos h]
      rcases h with h | h
      · subst h
        simp
      · subst h
        symm
        apply List.sum_eq_zero
        intro x hx
        simp only [List.map_nil, List.mem_map, List.sum_nil] at hx
        obtain ⟨-, -, rfl⟩ := hx
        rfl
    · rw [if_neg h, score_foldl_eq, zero_add]
  refine ⟨heq, ?_, ?_⟩
  · rw [heq]
    unfold specRelevanceScore
    apply List.sum_nonneg
    intro x hx
    simp only [List.mem_map] at hx
    obtain ⟨hb, -, rfl⟩ := hx
    apply List.sum_nonneg
    intro y hy
    simp only [List.mem_map] at hy
    obtain ⟨c, -, rfl⟩ := hy
    exact pairScore_nonneg _ _
  · intro h
    unfold calculate_relevance_score
    rw [if_pos h]

/-- Concrete evaluations of the scorer: exact match 10, substring 5, curated
synonym pair 2, a repeated interest contributing twice (no deduplication),
and 0 on an empty side. -/
theorem relevance_score_examples :
    calculate_relevance_score ["Festival"] ["festival"] = 10 ∧
    calculate_relevance_score ["nhạc"] ["ca nhạc"] = 5 ∧
    calculate_relevance_score ["văn hóa"] ["lễ hội"] = 2 ∧
    calculate_relevance_score ["văn hóa", "văn hóa"] ["lễ hội"] = 4 ∧
    calculate_relevance_score [] ["festival"] = 0 := by
  refine ⟨?_, ?_, ?_, ?_, ?_⟩ <;> decide

/-- C6 (code bug): for every entity list and limit, when the requesting
user's hobby list is empty the endpoint takes the explicit fallback branch
(`if not user_hobbies: ... get_all(limit=limit)`), but `get_all` accepts no
keyword parameter named "limit", so the call raises `TypeError` (re-raised
by the handler as a `CustomException`) instead of returning the unranked
newest-first entity list the fallback intends. -/
theorem get_recommendations_empty_hobbies_errors (docs : List EventDoc) (limit : Nat) :
    get_recommendations_endpoint [] limit docs = .error .typeError ∧
    "limit" ∉ get_all_keyword_params := by
  have hmem : "limit" ∉ get_all_keyword_params := by decide
  refine ⟨?_, hmem⟩
  simp [get_recommendations_endpoint, hmem]

/-- C7, amended: for every distance oracle (haversine `calculate_distance`
in the source), center, radius, limit and entity list: the pipeline silently
excludes entities with missing or malformed coordinates and returns only
entities whose computed distance is at most `radius_km`, with `distance_km`
stored as that distance rounded to two decimals; the output is sorted
ascending by the stored rounded `distance_km` — the sort key in the source —
with rounded-distance ties (and correctly ordered pairs) keeping their input
order, and is truncated to at most `limit` entries. -/
theorem get_nearby_events_spec (dist : ℚ → ℚ → ℚ → ℚ → ℚ) (lat lng radius_km : ℚ)
    (limit : Nat) (docs : List EventDoc) :
    (∀ it ∈ get_nearby_events dist lat lng radius_km limit docs,
      it.event ∈ docs ∧ ∃ event_lng event_lat,
        it.event.coords = some [event_lng, event_lat] ∧
        dist lat lng event_lat event_lng ≤ radius_km ∧
        it.distance_km = round2 (dist lat lng event_lat event_lng)) ∧
    List.Sorted (byKeyLE NearbyItem.distance_km)
      (get_nearby_events dist lat lng radius_km limit docs) ∧
    (∀ a b : NearbyItem, a.distance_km ≤ b.distance_km →
      List.Sublist [a, b] (nearby_candidates dist lat lng radius_km docs) →
      List.Sublist [a, b] (List.insertionSort (byKeyLE NearbyItem.distance_km)
        (nearby_candidates dist lat lng radius_km docs))) ∧
    (get_nearby_events dist lat lng radius_km limit docs).length ≤ limit := by
  refine ⟨?_, ?_, ?_, ?_⟩
  · intro it hit
    have hmem : it ∈ nearby_candidates dist lat lng radius_km docs := by
      have h1 : it ∈ List.insertionSort (byKeyLE NearbyItem.distance_km)
          (nearby_candidates dist lat lng radius_km docs) :=
        List.mem_of_mem_take hit
      exact (List.mem_insertionSort _).mp h1
    unfold nearby_candidates at hmem
    obtain ⟨e, he, hf⟩ := List.mem_filterMap.mp hmem
    have hedocs : e ∈ docs := (List.mem_filter.mp he).1
    split at hf
    · rename_i event_lng event_lat heq
      dsimp only at hf
      split at hf
      · rename_i hle
        simp only [Option.some.injEq] at hf
        subst hf
        exact ⟨hedocs, event_lng, event_lat, heq, hle, rfl⟩
      · cases hf
    · cases hf
  · exact List.Pairwise.sublist (List.take_sublist _ _) (List.sorted_insertionSort _ _)
  · intro a b hle hsub
    exact List.sublist_insertionSort (List.pairwise_pair.mpr hle) hsub
  · exact List.length_take_le _ _

theorem round2_one : round2 1 = 1 := by
  norm_num [round2, roundHalfEven]

theorem round2_of_1004 : round2 (251/250) = 1 := by
  have h100 : (251/250 : ℚ) * 100 = 502/5 := by norm_num
  have hfl : ⌊(502/5 : ℚ)⌋ = 100 := by
    rw [Int.floor_eq_iff]
    norm_num
  rw [round2, roundHalfEven, h100, hfl]
  norm_num

/-- C7 counterexample to "sorted ascending by the haversine distance":
both raw distances (1.004 km and 1 km) round to the same stored
`distance_km` 1.0, so the pipeline keeps input order and returns the
1.004 km event before the 1 km event — the output is not ascending in the
computed distance, and the two distances are not ties. -/
theorem get_nearby_events_not_sorted_by_raw_distance :
    get_nearby_events distC 0 0 10 20 [nearEventA, nearEventB]
      = [⟨nearEventA, 1⟩, ⟨nearEventB, 1⟩] ∧
    nearEventA.coords = some [0, 0] ∧ nearEventB.coords = some [0, 1] ∧
    distC 0 0 0 0 = 251/250 ∧ distC 0 0 1 0 = 1 ∧ ¬(251/250 ≤ (1 : ℚ)) := by
  refine ⟨?_, rfl, rfl, by norm_num [distC], by norm_num [distC], by norm_num⟩
  have hcand : nearby_candidates distC 0 0 10 [nearEventA, nearEventB]
      = [⟨nearEventA, 1⟩, ⟨nearEventB, 1⟩] := by
    unfold nearby_candidates
    have hvA : visMatch nearEventA = true := by decide
    have hvB : visMatch nearEventB = true := by decide
    simp only [List.filter, hvA, hvB, List.filterMap, nearEventA, nearEventB, distC]
    norm_num [round2_of_1004, round2_one]
  unfold get_nearby_events
  rw [hcand]
  simp [List.insertionSort, List.orderedInsert, byKeyLE]

theorem evalClause_visOr (rmatch : String → String → Bool) (d : EventDoc) :
    (evalClause rmatch .visOr d = true) ↔ (d.is_visible = some true ∨ d.is_visible = none) := by
  simp [evalClause, visMatch]

theorem text_group_spec (rmatch : String → String → Bool) (q : Option String) (d : EventDoc) :
    ((if truthyStr q then [SearchClause.textOr (q.getD "")] else []).all
        (fun c => evalClause rmatch c d) = true)
      ↔ (∀ s, q = some s → s ≠ "" →
          (rmatch s d.name = true ∨ rmatch s d.intro = true ∨
            rmatch s d.history = true)) := by
  cases q with
  | none => simp [truthyStr]
  | some s =>
    by_cases hs : s = ""
    · subst hs
      simp [truthyStr]
    · simp [truthyStr, hs, evalClause, or_assoc]

theorem city_group_spec (rmatch : String → String → Bool) (c : Option String) (d : EventDoc) :
    ((if truthyStr c then [SearchClause.cityRe (c.getD "")] else []).all
        (fun cl => evalClause rmatch cl d) = true)
      ↔ (∀ s, c = some s → s ≠ "" → rmatch s d.city = true) := by
  cases c with
  | none => simp [truthyStr]
  | some s =>
    by_cases hs : s = ""
    · subst hs
      simp [truthyStr]
    · simp [truthyStr, hs, evalClause]

theorem province_group_spec (rmatch : String → String → Bool) (p : Option String) (d : EventDoc) :
    ((if truthyStr p then [SearchClause.provinceRe (p.getD "")] else []).all
        (fun cl => evalClause rmatch cl d) = true)
      ↔ (∀ s, p = some s → s ≠ "" → rmatch s d.province = true) := by
  cases p with
  | none => simp [truthyStr]
  | some s =>
    by_cases hs : s = ""
    · subst hs
      simp [truthyStr]
    · simp [truthyStr, hs, evalClause]

theorem category_group_spec (rmatch : String → String → Bool)
    (cats : Option (List String)) (d : EventDoc) :
    ((if truthyList cats then
        [SearchClause.catOr ((cats.getD []).map (fun cat => "^" ++ cat ++ "$"))]
      else []).all (fun cl => evalClause rmatch cl d) = true)
      ↔ (∀ l, cats = some l → l ≠ [] →
          ∃ cat ∈ l, ∃ dc ∈ d.categories, rmatch ("^" ++ cat ++ "$") dc = true) := by
  cases cats with
  | none => simp [truthyList]
  | some l =>
    cases l with
    | nil => simp [truthyList]
    | cons c cs =>
      simp [truthyList, evalClause, List.any_eq_true]

/-- C8, amended: the predicate `search_events` builds matches a record, for
every `$regex` engine, exactly when every provided group matches it under
that engine (free text OR-combined across name/intro/history, categories
OR-combined across the anchored `^cat$` patterns), with the groups ANDed,
the visibility predicate (visible OR field-absent) always ANDed in, and —
following Python truthiness — absent or provided-but-empty parameters
omitted entirely rather than treated as match-nothing; and whenever the
engine is given only metacharacter-free parameters, on which a regex
matches as literal text, those leaves are exactly the claimed
case-insensitive substring (text, city, province) and exact (category)
conditions. -/
theorem search_filter_spec (rmatch : String → String → Bool)
    (query city province : Option String) (categories : Option (List String))
    (d : EventDoc) :
    (evalFilter rmatch (search_filter query city province categories) d = true
      ↔ specSearchMatchesOracle rmatch query city province categories d) ∧
    ((∀ pat text, isLiteralPattern pat = true → rmatch pat text = iContains pat text) →
      (∀ cat text, isLiteralPattern cat = true →
        rmatch ("^" ++ cat ++ "$") text = iEqStr cat text) →
      (∀ s, query = some s → isLiteralPattern s = true) →
      (∀ s, city = some s → isLiteralPattern s = true) →
      (∀ s, province = some s → isLiteralPattern s = true) →
      (∀ l, categories = some l → ∀ cat ∈ l, isLiteralPattern cat = true) →
      (evalFilter rmatch (search_filter query city province categories) d = true
        ↔ specSearchMatches query city province categories d)) := by
  have h1 : evalFilter rmatch (search_filter query city province categories) d = true
      ↔ specSearchMatchesOracle rmatch query city province categories d := by
    unfold evalFilter search_filter specSearchMatchesOracle
    simp only [List.all_append, List.all_cons, List.all_nil, Bool.and_true,
      Bool.and_eq_true, and_assoc]
    exact and_congr (evalClause_visOr rmatch d)
      (and_congr (text_group_spec rmatch query d)
        (and_congr (city_group_spec rmatch city d)
          (and_congr (province_group_spec rmatch province d)
            (category_group_spec rmatch categories d))))
  refine ⟨h1, fun hlit hanch hq hc hp hk => ?_⟩
  rw [h1]
  unfold specSearchMatchesOracle specSearchMatches
  constructor
  · rintro ⟨hv, ht, hct, hpv, hcg⟩
    refine ⟨hv, ?_, ?_, ?_, ?_⟩
    · intro s hs hne
      have h := ht s hs hne
      rw [hlit s d.name (hq s hs), hlit s d.intro (hq s hs),
        hlit s d.history (hq s hs)] at h
      exact h
    · intro s hs hne
      have h := hct s hs hne
      rw [hlit s d.city (hc s hs)] at h
      exact h
    · intro s hs hne
      have h := hpv s hs hne
      rw [hlit s d.province (hp s hs)] at h
      exact h
    · intro l hl hne
      obtain ⟨cat, hcat, dc, hdc, hm⟩ := hcg l hl hne
      rw [hanch cat dc (hk l hl cat hcat)] at hm
      exact ⟨cat, hcat, dc, hdc, hm⟩
  · rintro ⟨hv, ht, hct, hpv, hcg⟩
    refine ⟨hv, ?_, ?_, ?_, ?_⟩
    · intro s hs hne
      have h := ht s hs hne
      rw [← hlit s d.name (hq s hs), ← hlit s d.intro (hq s hs),
        ← hlit s d.history (hq s hs)] at h
      exact h
    · intro s hs hne
      have h := hct s hs hne
      rw [← hlit s d.city (hc s hs)] at h
      exact h
    · intro s hs hne
      have h := hpv s hs hne
      rw [← hlit s d.province (hp s hs)] at h
      exact h
    · intro l hl hne
      obtain ⟨cat, hcat, dc, hdc, hm⟩ := hcg l hl hne
      rw [← hanch cat dc (hk l hl cat hcat)] at hm
      exact ⟨cat, hcat, dc, hdc, hm⟩

theorem engineModel_literal (pat text : String) (h : isLiteralPattern pat = true) :
    engineModel pat text = iContains pat text := by
  unfold engineModel
  rw [if_neg]
  intro hcond
  have hhead : pat.data.head? = some '^' := by
    simp only [Bool.and_eq_true] at hcond
    simpa using hcond.1
  have hmem : '^' ∈ pat.data := by
    cases hp : pat.data with
    | nil => rw [hp] at hhead; cases hhead
    | cons c rest =>
      rw [hp] at hhead
      simp only [List.head?_cons, Option.some.injEq] at hhead
      rw [hhead]
      exact List.mem_cons_self _ _
  have hall := List.all_eq_true.mp h '^' hmem
  simp only [Bool.not_eq_true'] at hall
  exact absurd hall (by decide)

theorem engineModel_anchored (cat text : String) (_h : isLiteralPattern cat = true) :
    engineModel ("^" ++ cat ++ "$") text = iEqStr cat text := by
  have hdata : ("^" ++ cat ++ "$").data = ('^' :: cat.data) ++ ['$'] := by
    simp [String.data_append]
  unfold engineModel
  rw [hdata, if_pos]
  · have hdrop : ((('^' :: cat.data) ++ ['$']).drop 1).dropLast = cat.data := by
      rw [List.cons_append, List.drop_one, List.tail_cons, List.dropLast_concat]
    rw [hdrop]
  · rw [Bool.and_eq_true]
    constructor
    · simp
    · rw [List.getLast?_concat]
      simp

/-- C8 counterexample to the literal reading of the claim, two parts.
Truthiness: with a provided-but-empty category list the built predicate
omits the category group entirely and the visible record matches, while "at
least one provided category matches" is false for an empty list.
Metacharacters: the source passes the query into `$regex` unescaped, so the
query "a.c" matches the name "abc" under the engine (PCRE's `.` matches any
character; `dotOracle` is the faithful matcher of that fragment) although
"a.c" is not a substring of "abc" — the substring reading is false of the
program on metacharacter input. -/
theorem search_filter_empty_categories_counterexample :
    (evalFilter engineModel (search_filter none none none (some [])) searchDoc = true ∧
      ¬ specSearchMatchesLiteral none none none (some []) searchDoc) ∧
    (evalFilter dotOracle (search_filter (some "a.c") none none none) docAbc = true ∧
      iContains "a.c" "abc" = false ∧
      ¬ specSearchMatchesLiteral (some "a.c") none none none docAbc) := by
  refine ⟨⟨by decide, ?_⟩, by decide, by decide, ?_⟩
  · intro h
    obtain ⟨c, hc, -⟩ := h.2.2.2.2 [] rfl
    exact absurd hc (List.not_mem_nil c)
  · intro h
    rcases h.2.1 "a.c" rfl (by decide) with h1 | h1 | h1 <;> exact absurd h1 (by decide)

/-- Concrete run: deleting the only rating of event 1 recomputes its stats
to average 0 and count 0 (the stale stored stats ⟨4, 1⟩ are overwritten). -/
theorem review_delete_last_concrete :
    (delete_review ⟨[⟨10, 1, 2, 4, "ok"⟩], fun n => if n = 1 then some ⟨4, 1⟩ else none⟩
        10 2 false).map (fun s => s.events 1) = .ok (some ⟨0, 0⟩) := by
  rfl

/-- Concrete run: creating the first rating (value 4) for event 1 writes
through average 4.0 and count 1. -/
theorem review_create_concrete :
    (create_review ⟨[], fun n => if n = 1 then some ⟨0, 0⟩ else none⟩ 1 2 4 "ok" 10).map
        (fun p => p.1.events 1) = .ok (some ⟨4, 1⟩) := by
  have hstats : get_event_average_rating
      ⟨[⟨10, 1, 2, 4, "ok"⟩], fun n => if n = 1 then some ⟨0, 0⟩ else none⟩ 1 = ⟨4, 1⟩ := by
    unfold get_event_average_rating
    norm_num [round1, roundHalfEven]
  simp only [create_review, get_user_review_for_event, List.find?, update_event_stats]
  norm_num [hstats]
  rfl
